import Mathlib

/-!
Verification of the MMseqs2 API client `run_mmseqs`
(`src/alphafold/data/tools/mmseqs2.py`; the near-identical `run` in
`src/alphafold/data/mmseqs2.py` shares the lines relevant here).

The embedding models:
  * the deduplication of the input batch and the identifier map `Ms`
    (lines 74-78);
  * the submit / poll / download retry state machine (lines 80-128) as a
    function consuming a finite list of server responses, each response
    being `some status` (a JSON body carrying that status string) or
    `none` (a body that is not valid JSON); the network requests made are
    recorded as an event trace;
  * the result assembler (lines 131-190): the template hits parser, the
    `template_paths` construction, the a3m block parser and the final
    reordering by `Ms`; filesystem contents (the extracted a3m files and
    the `pdb70.m8` hits file) are passed in as line lists.

Python string primitives used by the source are re-implemented over
`String.data` (a `List Char`) so that everything reduces: `str.rstrip()`,
`str.split()`, `"\x00" in line`, `line.replace("\x00", "")` (a
single-character pattern replaced by the empty string, i.e. dropping every
NUL character), `line.startswith(">")` (a single-character prefix),
`line[1:]`, and `int(...)` on a digit string.

Python runtime errors that the control flow can actually reach are made
explicit: reading a never-assigned local raises `UnboundLocalError`
(modelled by `PyError.unboundLocal`), a missing dict key raises `KeyError`,
a failing `int()` raises `ValueError`, an out-of-range field index raises
`IndexError`, and `raise Exception(msg)` is `PyError.exn msg`.

Out of scope (external collaborators per the spec): the HTTP transport
itself, tar extraction, tqdm progress display, wall-clock sleeps, and the
shell-invoked template download.
-/

/-! ## Python string primitives -/

/-- The NUL control byte `"\x00"`. -/
def nulChar : Char := '\x00'

/-- Python `"\x00" in line` (single-character substring containment). -/
def containsNul (s : String) : Bool := s.data.any (fun ch => ch == nulChar)

/-- Python `line.replace("\x00", "")`: the pattern is the single NUL
character and the replacement is empty, so every NUL is dropped. -/
def stripNulStr (s : String) : String := String.mk (s.data.filter (fun ch => ch != nulChar))

/-- Python `line.startswith(">")` (single-character prefix). -/
def pyStartsWithGT (s : String) : Bool :=
  match s.data with
  | [] => false
  | ch :: _ => ch == '>'

/-- Python `line[1:]` (drop the first code point). -/
def pyDrop1 (s : String) : String := String.mk (s.data.drop 1)

/-- Python `s.rstrip()`: drop trailing whitespace. -/
def pyRstrip (s : String) : String :=
  String.mk ((s.data.reverse.dropWhile Char.isWhitespace).reverse)

/-- Helper for `pySplit`: `cur` is the current chunk, reversed. -/
def pySplitAux : List Char → List Char → List String
  | cur, [] => if cur.isEmpty then [] else [String.mk cur.reverse]
  | cur, c :: cs =>
    if c.isWhitespace then
      if cur.isEmpty then pySplitAux [] cs
      else String.mk cur.reverse :: pySplitAux [] cs
    else pySplitAux (c :: cur) cs

/-- Python `s.split()` with no argument: split on whitespace runs,
dropping empty chunks. -/
def pySplit (s : String) : List String := pySplitAux [] s.data

/-- Digit accumulator for `pyInt`. -/
def digitsToNatAux : Nat → List Char → Option Nat
  | acc, [] => some acc
  | acc, c :: cs =>
    if c.isDigit then digitsToNatAux (acc * 10 + (c.toNat - 48)) cs
    else none

/-- Parse a non-empty all-digit character list. -/
def digitsToNat : List Char → Option Nat
  | [] => none
  | l => digitsToNatAux 0 l

/-- Python `int(s)` on the strings the source feeds it (an optional minus
sign followed by decimal digits); `none` models a raised `ValueError`. -/
def pyInt (s : String) : Option Int :=
  match s.data with
  | '-' :: rest => (digitsToNat rest).map (fun n => -(n : Int))
  | ds => (digitsToNat ds).map (fun n => (n : Int))

/-! ## Deduplication and the identifier map (lines 74-78) -/

/-- One step of the dedup list comprehension
`[seqs_unique.append(x) for x in seqs if x not in seqs_unique]`. -/
def dedupStep (acc : List String) (s : String) : List String :=
  if s ∈ acc then acc else acc ++ [s]

/-- `seqs_unique`: the batch with duplicates removed, first occurrences
kept in order. -/
def seqs_unique (seqs : List String) : List String :=
  seqs.foldl dedupStep []

/-- Python `list.index`: index of the first occurrence. -/
def listIndex : List String → String → Nat
  | [], _ => 0
  | x :: xs, s => if x = s then 0 else listIndex xs s + 1

/-- `Ms = [N + seqs_unique.index(seq) for seq in seqs]` with `N = 101`. -/
def Ms (seqs : List String) : List Int :=
  seqs.map (fun s => 101 + (listIndex (seqs_unique seqs) s : Int))

/-! ## The job driver (lines 80-128) -/

/-- A network request made by the driver.  `submit st` and `poll st`
record the status string parsed from the corresponding response;
`download` is a call to the `result/download` endpoint. -/
inductive Event where
  | submit (st : String)
  | poll (st : String)
  | download
deriving DecidableEq, Repr

/-- Both `submit` and `status` parse the response body as JSON and fall
back to `\x7b"status": "ERROR"\x7d` when parsing fails (lines 28-33 and
37-42).  A response is `some st` (valid JSON with that status) or `none`
(not valid JSON). -/
def parseResp (r : Option String) : String := r.getD "ERROR"

/-- `out["status"] in ["UNKNOWN", "RATELIMIT"]` (line 88). -/
def inSubmitRetry (st : String) : Bool := st == "UNKNOWN" || st == "RATELIMIT"

/-- `out["status"] in ["UNKNOWN", "RUNNING", "PENDING"]` (line 106). -/
def inPollSet (st : String) : Bool :=
  st == "UNKNOWN" || st == "RUNNING" || st == "PENDING"

/-- Message of the exception raised on status ERROR (lines 96-98 and
123-125). -/
def errorMsg : String :=
  "MMseqs2 API is giving errors. Please confirm your input is a valid protein sequence. If error persists, please try again an hour later."

/-- Message of the exception raised on status MAINTENANCE (line 101). -/
def maintenanceMsg : String :=
  "MMseqs2 API is undergoing maintenance. Please try again in a few minutes."

/-- The submission retry loop (lines 87-93): submit, then resubmit while
the status is UNKNOWN or RATELIMIT.  Returns the first status outside
that set, the remaining responses, and the submit events issued;
`none` means the responses ran out (the real loop would block). -/
def submitLoop : List (Option String) → Option (String × List (Option String) × List Event)
  | [] => none
  | r :: rest =>
    let st := parseResp r
    if inSubmitRetry st then
      match submitLoop rest with
      | none => none
      | some (f, rem, evs) => some (f, rem, Event.submit st :: evs)
    else some (st, rest, [Event.submit st])

/-- The polling loop (lines 106-114): while the current status is
UNKNOWN, RUNNING or PENDING, query the ticket status again. -/
def pollLoop : String → List (Option String) → Option (String × List (Option String) × List Event)
  | cur, [] => if inPollSet cur then none else some (cur, [], [])
  | cur, r :: rest =>
    if inPollSet cur then
      match pollLoop (parseResp r) rest with
      | none => none
      | some (f, rem, evs) => some (f, rem, Event.poll (parseResp r) :: evs)
    else some (cur, r :: rest, [])

/-- Outcome of the `while REDO` loop: normal exit with the trace of
requests, a raised exception with its message and trace, or `stuck`
when the finite response list (or fuel) is exhausted mid-loop. -/
inductive RunOutcome where
  | ok (trace : List Event)
  | raised (msg : String) (trace : List Event)
  | stuck
deriving DecidableEq, Repr

/-- The `while REDO` loop (lines 83-128).  Each iteration: run the
submission retry loop; raise on ERROR or MAINTENANCE; poll; on final
status COMPLETE clear REDO; on final status ERROR raise; then call
`download` unconditionally and loop again if REDO is still set. -/
def redoLoop : Nat → List (Option String) → RunOutcome
  | 0, _ => RunOutcome.stuck
  | fuel + 1, resps =>
    match submitLoop resps with
    | none => RunOutcome.stuck
    | some (s, rest, evs1) =>
      if s = "ERROR" then RunOutcome.raised errorMsg evs1
      else if s = "MAINTENANCE" then RunOutcome.raised maintenanceMsg evs1
      else
        match pollLoop s rest with
        | none => RunOutcome.stuck
        | some (f, rest2, evs2) =>
          if f = "ERROR" then RunOutcome.raised errorMsg (evs1 ++ evs2)
          else if f = "COMPLETE" then RunOutcome.ok (evs1 ++ evs2 ++ [Event.download])
          else
            match redoLoop fuel rest2 with
            | RunOutcome.ok t => RunOutcome.ok (evs1 ++ evs2 ++ [Event.download] ++ t)
            | RunOutcome.raised m t => RunOutcome.raised m (evs1 ++ evs2 ++ [Event.download] ++ t)
            | RunOutcome.stuck => RunOutcome.stuck

/-- Prepend an event to the trace of an outcome. -/
def prependEv (e : Event) : RunOutcome → RunOutcome
  | RunOutcome.ok t => RunOutcome.ok (e :: t)
  | RunOutcome.raised m t => RunOutcome.raised m (e :: t)
  | RunOutcome.stuck => RunOutcome.stuck

/-- Is this event a download call? -/
def isDownload : Event → Bool
  | Event.download => true
  | _ => false

/-- Number of download calls in a trace. -/
def downloadCount (t : List Event) : Nat := t.countP isDownload

/-- Does this event observe status COMPLETE? -/
def eventObsComplete : Event → Bool
  | Event.submit st => st == "COMPLETE"
  | Event.poll st => st == "COMPLETE"
  | Event.download => false

/-- `seen` records whether a COMPLETE status has been observed so far;
every download event must come after such an observation. -/
def dlAfterComplete : Bool → List Event → Bool
  | _, [] => true
  | seen, Event.download :: rest => seen && dlAfterComplete seen rest
  | seen, e :: rest => dlAfterComplete (seen || eventObsComplete e) rest

/-- Every download in the trace happens after a COMPLETE observation. -/
def downloadsOnlyAfterComplete (t : List Event) : Bool := dlAfterComplete false t

/-- The statuses for which the driver's enumerated handling is complete:
the transient poll statuses plus COMPLETE. -/
def goodStatuses : List String := ["UNKNOWN", "RUNNING", "PENDING", "COMPLETE"]

/-! ## Mode selection (lines 19 and 52-64) -/

/-- The configuration computed before submission. -/
structure Setup where
  mode : String
  submissionEndpoint : String
  useTemplates : Bool
  useEnv : Bool
deriving DecidableEq, Repr

/-- Lines 19 and 52-64: endpoint choice, the `filter` compatibility
override, the four-way mode string, and the pairing overrides. -/
def setupRun (use_env use_filter use_templates : Bool) (filterOpt : Option Bool)
    (use_pairing : Bool) : Setup :=
  let uf := match filterOpt with
    | some f => f
    | none => use_filter
  let baseMode := if uf then (if use_env then "env" else "all")
    else (if use_env then "env-nofilter" else "nofilter")
  { mode := if use_pairing then "" else baseMode
    submissionEndpoint := if use_pairing then "ticket/pair" else "ticket/msa"
    useTemplates := if use_pairing then false else use_templates
    useEnv := if use_pairing then false else use_env }

/-! ## The result assembler (lines 131-190) -/

/-- Python runtime errors reachable in this code, plus raised exceptions. -/
inductive PyError where
  | unboundLocal (name : String)
  | keyError
  | valueError
  | indexError
  | exn (msg : String)
deriving DecidableEq, Repr

/-- Lookup in an insertion-ordered dict with `List String` values. -/
def lookupLS : List (Int × List String) → Int → Option (List String)
  | [], _ => none
  | (k, v) :: rest, n => if k = n then some v else lookupLS rest n

/-- `if M not in a3m_lines: a3m_lines[M] = []` — Python dicts append new
keys at the end. -/
def ensureKey (d : List (Int × List String)) (m : Int) : List (Int × List String) :=
  if (lookupLS d m).isSome then d else d ++ [(m, [])]

/-- `d[m].append(line)`; `none` models the `KeyError` raised when the key
is absent. -/
def dictAppendLine : List (Int × List String) → Int → String → Option (List (Int × List String))
  | [], _, _ => none
  | (k, v) :: rest, m, line =>
    if k = m then some ((k, v ++ [line]) :: rest)
    else (dictAppendLine rest m line).map (fun d => (k, v) :: d)

/-- Parser state of the a3m gathering loop: the shared `a3m_lines` dict,
`update_M`, and the current block identifier `M` (`none` is Python's
initial `M = None`). -/
structure A3mSt where
  d : List (Int × List String)
  upd : Bool
  m : Option Int
deriving DecidableEq, Repr

/-- One line of the a3m gathering loop (lines 169-178): skip empty lines;
strip NUL bytes and set `update_M`; on a header line with `update_M`
set, parse the identifier, ensure its dict entry and clear `update_M`;
finally append the (possibly stripped) line to the current block. -/
def a3mStep (st : A3mSt) (rawLine : String) : Except PyError A3mSt :=
  if 0 < rawLine.length then
    let hasNul := containsNul rawLine
    let line := if hasNul then stripNulStr rawLine else rawLine
    let upd := hasNul || st.upd
    if pyStartsWithGT line && upd then
      match pyInt (pyRstrip (pyDrop1 line)) with
      | none => Except.error PyError.valueError
      | some m =>
        let d2 := ensureKey st.d m
        match dictAppendLine d2 m line with
        | none => Except.error PyError.keyError
        | some d3 => Except.ok (A3mSt.mk d3 false (some m))
    else
      match st.m with
      | none => Except.error PyError.keyError
      | some mm =>
        match dictAppendLine st.d mm line with
        | none => Except.error PyError.keyError
        | some d3 => Except.ok (A3mSt.mk d3 upd st.m)
  else Except.ok st

/-- Run `a3mStep` over the lines of one file. -/
def a3mRun : A3mSt → List String → Except PyError A3mSt
  | st, [] => Except.ok st
  | st, l :: ls =>
    match a3mStep st l with
    | Except.error e => Except.error e
    | Except.ok st2 => a3mRun st2 ls

/-- Parse one a3m file, starting each file with
`update_M, M = True, None` (line 168) and the dict accumulated so far. -/
def parseA3mFile (d : List (Int × List String)) (lines : List String) :
    Except PyError (List (Int × List String)) :=
  Except.map A3mSt.d (a3mRun (A3mSt.mk d true none) lines)

/-- The outer loop over `a3m_files` (lines 166-178). -/
def gatherA3m : List (Int × List String) → List (List String) → Except PyError (List (Int × List String))
  | d, [] => Except.ok d
  | d, f :: fs =>
    match parseA3mFile d f with
    | Except.error e => Except.error e
    | Except.ok d2 => gatherA3m d2 fs

/-- `a3m_lines` accumulated over all files, starting from the empty dict. -/
def gatherA3mFiles (files : List (List String)) : Except PyError (List (Int × List String)) :=
  gatherA3m [] files

/-- Line 181: `["".join(a3m_lines[n]) for n in Ms]`; a missing key is a
`KeyError`. -/
def buildA3mList (d : List (Int × List String)) : List Int → Except PyError (List String)
  | [] => Except.ok []
  | n :: ns =>
    match lookupLS d n with
    | none => Except.error PyError.keyError
    | some ls =>
      match buildA3mList d ns with
      | Except.error e => Except.error e
      | Except.ok rest => Except.ok (String.join ls :: rest)

/-- One line of `pdb70.m8` (lines 147-149):
`p = line.rstrip().split(); M, pdb = int(p[0]), p[1]` with `p[2]` and
`p[10]` also read, so fewer than 11 fields is an `IndexError`. -/
def parseHitLine (line : String) : Except PyError (Int × String) :=
  let p := pySplit (pyRstrip line)
  if h : p.length < 11 then Except.error PyError.indexError
  else
    match pyInt (p.get ⟨0, by omega⟩) with
    | none => Except.error PyError.valueError
    | some m => Except.ok (m, p.get ⟨1, by omega⟩)

/-- The integer parsed from the first column of a hits line, when the
line parses at all. -/
def hitFirstCol (line : String) : Option Int :=
  match parseHitLine line with
  | Except.ok (m, _) => some m
  | Except.error _ => none

/-- `if M not in templates: templates[M] = []; templates[M].append(pdb)`
(lines 150-151) on an insertion-ordered dict. -/
def dictAppendStr : List (Int × List String) → Int → String → List (Int × List String)
  | [], m, v => [(m, [v])]
  | (k, vs) :: rest, m, v =>
    if k = m then (k, vs ++ [v]) :: rest
    else (k, vs) :: dictAppendStr rest m v

/-- The hits-file loop (lines 146-151), accumulating the `templates`
dict. -/
def buildTemplatesAux : List (Int × List String) → List String → Except PyError (List (Int × List String))
  | d, [] => Except.ok d
  | d, line :: rest =>
    match parseHitLine line with
    | Except.error e => Except.error e
    | Except.ok (m, pdb) => buildTemplatesAux (dictAppendStr d m pdb) rest

/-- `templates` built from the `pdb70.m8` lines. -/
def buildTemplates (lines : List String) : Except PyError (List (Int × List String)) :=
  buildTemplatesAux [] lines

/-- Lines 153-163: `template_paths[k] = TMPL_PATH` for each key of
`templates`, with `TMPL_PATH = f"[prefix]_[mode]/templates_[k]"`; the
mkdir/curl side effects are out of scope. -/
def templatePathsDict (templates : List (Int × List String)) (prefixStr modeStr : String) :
    List (Int × String) :=
  templates.map (fun kv => (kv.1, prefixStr ++ "_" ++ modeStr ++ "/templates_" ++ toString kv.1))

/-- Lookup in the `template_paths` dict. -/
def lookupStr : List (Int × String) → Int → Option String
  | [], _ => none
  | (k, v) :: rest, n => if k = n then some v else lookupStr rest n

/-- Lines 183-190: for each `n` in `Ms`, `template_paths[n]` when present,
else the absent marker `None`. -/
def buildTemplatePathsList (tp : List (Int × String)) (ms : List Int) : List (Option String) :=
  ms.map (fun n => lookupStr tp n)

/-- The result assembler (lines 143-190), run after a successful
download.  `templates` is a local variable assigned only under
`use_templates` (lines 143-151); the loop at line 154 reads it
unconditionally, so when `use_templates` is false that read raises
`UnboundLocalError`. -/
def assemble (useTemplates : Bool) (prefixStr modeStr : String) (hits : List String)
    (files : List (List String)) (ms : List Int) :
    Except PyError (List String × Option (List (Option String))) :=
  match (if useTemplates then Except.map some (buildTemplates hits) else Except.ok none) with
  | Except.error e => Except.error e
  | Except.ok none => Except.error (PyError.unboundLocal "templates")
  | Except.ok (some T) =>
    match gatherA3mFiles files with
    | Except.error e => Except.error e
    | Except.ok d =>
      match buildA3mList d ms with
      | Except.error e => Except.error e
      | Except.ok a3m =>
        Except.ok (a3m, if useTemplates then
          some (buildTemplatePathsList (templatePathsDict T prefixStr modeStr) ms) else none)

/-! ## The whole function (lines 16-192) -/

/-- Result of a call to `run_mmseqs`: a normal return carrying
`a3m_lines`, the optional `template_paths` list and the request trace;
an uncaught Python error with the trace issued up to that point; or
`stuck` when the finite response list ran out inside a retry loop. -/
inductive TopResult where
  | ret (a3m : List String) (tpl : Option (List (Option String))) (trace : List Event)
  | err (e : PyError) (trace : List Event)
  | stuck
deriving DecidableEq, Repr

/-- `run_mmseqs`.  When `out.tar.gz` already exists (`archiveExists`),
the whole block of lines 81-190 is skipped — including the assignment
of `a3m_lines` — so the `return` at line 192 reads an unbound local.
Otherwise the driver runs; if it finishes, the assembler runs on the
extracted file contents and the function returns `a3m_lines` (paired
with `template_paths` when templates are on). -/
def run_mmseqs (seqs : List String) (use_env use_filter use_templates : Bool)
    (filterOpt : Option Bool) (use_pairing : Bool) (prefixStr : String)
    (archiveExists : Bool) (resps : List (Option String)) (hits : List String)
    (files : List (List String)) : TopResult :=
  let st := setupRun use_env use_filter use_templates filterOpt use_pairing
  let ms := Ms seqs
  if archiveExists then TopResult.err (PyError.unboundLocal "a3m_lines") []
  else
    match redoLoop (resps.length + 1) resps with
    | RunOutcome.stuck => TopResult.stuck
    | RunOutcome.raised msg tr => TopResult.err (PyError.exn msg) tr
    | RunOutcome.ok tr =>
      match assemble st.useTemplates prefixStr st.mode hits files ms with
      | Except.error e => TopResult.err e tr
      | Except.ok (a3m, tpl) => TopResult.ret a3m tpl tr

/-! ## Helper lemmas for the driver -/

/-- Unfolding `submitLoop` on a retryable head response: the driver
resubmits and continues with the remaining responses. -/
theorem submitLoop_cons_retry (st : String) (h : inSubmitRetry st = true)
    (rest : List (Option String)) :
    submitLoop (some st :: rest) =
      match submitLoop rest with
      | none => none
      | some x => some (x.1, x.2.1, Event.submit st :: x.2.2) := by
  cases hs : submitLoop rest with
  | none => simp only [submitLoop, parseResp, Option.getD_some, h, if_true, hs]
  | some x =>
    obtain ⟨f, rem, evs⟩ := x
    simp only [submitLoop, parseResp, Option.getD_some, h, if_true, hs]

/-- A retryable head response only prepends its submit event to whatever
the rest of the run produces. -/
theorem redoLoop_cons_retry (st : String) (h : inSubmitRetry st = true)
    (fuel : Nat) (rest : List (Option String)) :
    redoLoop (fuel + 1) (some st :: rest)
      = prependEv (Event.submit st) (redoLoop (fuel + 1) rest) := by
  cases hs : submitLoop rest with
  | none => simp only [redoLoop, submitLoop_cons_retry st h rest, hs, prependEv]
  | some x =>
    obtain ⟨s, rem, evs⟩ := x
    simp only [redoLoop, submitLoop_cons_retry st h rest, hs]
    by_cases hE : s = "ERROR"
    · simp [hE, prependEv]
    by_cases hM : s = "MAINTENANCE"
    · simp [hE, hM, prependEv]
    simp only [if_neg hE, if_neg hM]
    cases hp : pollLoop s rem with
    | none => simp [prependEv]
    | some y =>
      obtain ⟨f, rem2, evs2⟩ := y
      by_cases hfE : f = "ERROR"
      · simp [hfE, prependEv]
      by_cases hfC : f = "COMPLETE"
      · simp [hfE, hfC, prependEv]
      simp only [if_neg hfE, if_neg hfC]
      cases hr : redoLoop fuel rem2 with
      | ok t => simp [prependEv]
      | raised m t => simp [prependEv]
      | stuck => simp [prependEv]

/-! ## C9: mode and endpoint selection -/

/-- C9: with `filter` left at its default, the mode is "env" / "all" /
"env-nofilter" / "nofilter" according to `use_filter` and `use_env`,
submission goes to ticket/msa; with `use_pairing` the mode is empty,
templates and env are forced off, and submission goes to ticket/pair. -/
theorem mode_and_endpoint_selection : ∀ (ue uf ut : Bool),
    (setupRun true true ut none false).mode = "env"
    ∧ (setupRun false true ut none false).mode = "all"
    ∧ (setupRun true false ut none false).mode = "env-nofilter"
    ∧ (setupRun false false ut none false).mode = "nofilter"
    ∧ (setupRun ue uf ut none false).submissionEndpoint = "ticket/msa"
    ∧ (setupRun ue uf ut none true).mode = ""
    ∧ (setupRun ue uf ut none true).useTemplates = false
    ∧ (setupRun ue uf ut none true).useEnv = false
    ∧ (setupRun ue uf ut none true).submissionEndpoint = "ticket/pair" := by
  decide

/-! ## C5: malformed JSON at submission -/

/-- A submission response that is not valid JSON is parsed as status
ERROR and raises the fatal API-error exception at once: the trace shows
the single submission and nothing after it. -/
theorem malformed_json_submission_fatal : ∀ (fuel : Nat) (rest : List (Option String)),
    redoLoop (fuel + 1) (none :: rest)
      = RunOutcome.raised errorMsg [Event.submit "ERROR"] :=
  fun _ _ => rfl

/-- C5 counterexample: a malformed submission body terminates the run
with the fatal exception even though later responses would succeed — it
is not retried, and nothing is downloaded. -/
theorem malformed_json_counterexample :
    redoLoop 3 [none, some "COMPLETE", some "COMPLETE"]
      = RunOutcome.raised errorMsg [Event.submit "ERROR"]
    ∧ downloadCount [Event.submit "ERROR"] = 0 :=
  ⟨rfl, rfl⟩

/-! ## C6: fatal versus retryable submission statuses -/

/-- C6: submission status ERROR or MAINTENANCE raises at once with its
case-specific message and a trace containing only that one submission
(no further submission or poll); the two messages differ; UNKNOWN and
RATELIMIT instead resubmit, continuing with the remaining responses. -/
theorem submit_status_fatal_vs_retry :
    (∀ (fuel : Nat) (rest : List (Option String)),
      redoLoop (fuel + 1) (some "ERROR" :: rest)
        = RunOutcome.raised errorMsg [Event.submit "ERROR"])
    ∧ (∀ (fuel : Nat) (rest : List (Option String)),
      redoLoop (fuel + 1) (some "MAINTENANCE" :: rest)
        = RunOutcome.raised maintenanceMsg [Event.submit "MAINTENANCE"])
    ∧ errorMsg ≠ maintenanceMsg
    ∧ (∀ (fuel : Nat) (rest : List (Option String)),
      redoLoop (fuel + 1) (some "UNKNOWN" :: rest)
        = prependEv (Event.submit "UNKNOWN") (redoLoop (fuel + 1) rest))
    ∧ (∀ (fuel : Nat) (rest : List (Option String)),
      redoLoop (fuel + 1) (some "RATELIMIT" :: rest)
        = prependEv (Event.submit "RATELIMIT") (redoLoop (fuel + 1) rest)) :=
  ⟨fun _ _ => rfl, fun _ _ => rfl, by decide,
   fun fuel rest => redoLoop_cons_retry "UNKNOWN" rfl fuel rest,
   fun fuel rest => redoLoop_cons_retry "RATELIMIT" rfl fuel rest⟩

/-! ## C3: pre-existing archive -/

/-- C3: when `out.tar.gz` already exists, no network request is made
(empty trace) — but instead of proceeding to parsing, the function
fails reading the never-assigned local `a3m_lines` at the `return`. -/
theorem archive_exists_unbound_a3m : ∀ (seqs : List String) (ue uf ut : Bool)
    (filterOpt : Option Bool) (up : Bool) (prefixStr : String)
    (resps : List (Option String)) (hits : List String) (files : List (List String)),
    run_mmseqs seqs ue uf ut filterOpt up prefixStr true resps hits files
      = TopResult.err (PyError.unboundLocal "a3m_lines") [] :=
  fun _ _ _ _ _ _ _ _ _ _ => rfl

/-! ## C10: templates loop with templates disabled -/

/-- C10: with `use_templates` false and no pre-existing archive, the
`template_paths` loop still reads the unassigned local `templates`, so
the call never returns the alignment list: every completed driver run
ends in the unbound-local failure. -/
theorem templates_unbound_when_disabled : ∀ (seqs : List String) (ue uf : Bool)
    (filterOpt : Option Bool) (up : Bool) (prefixStr : String)
    (resps : List (Option String)) (hits : List String) (files : List (List String)),
    (∀ (out : List String) (tpl : Option (List (Option String))) (tr : List Event),
      run_mmseqs seqs ue uf false filterOpt up prefixStr false resps hits files
        ≠ TopResult.ret out tpl tr)
    ∧ (∀ tr : List Event, redoLoop (resps.length + 1) resps = RunOutcome.ok tr →
      run_mmseqs seqs ue uf false filterOpt up prefixStr false resps hits files
        = TopResult.err (PyError.unboundLocal "templates") tr) := by
  intro seqs ue uf filterOpt up prefixStr resps hits files
  have hut : (setupRun ue uf false filterOpt up).useTemplates = false := by
    cases up <;> rfl
  have hasm : ∀ (p m : String), assemble false p m hits files (Ms seqs)
      = Except.error (PyError.unboundLocal "templates") := fun _ _ => rfl
  constructor
  · intro out tpl tr hcontra
    simp only [run_mmseqs, Bool.false_eq_true, if_false] at hcontra
    split at hcontra
    · exact TopResult.noConfusion hcontra
    · exact TopResult.noConfusion hcontra
    · rw [hut, hasm] at hcontra
      exact TopResult.noConfusion hcontra
  · intro tr hred
    simp only [run_mmseqs, Bool.false_eq_true, if_false, hred, hut, hasm]

/-- C10 witness: a concrete run with templates off that reaches the
assembler and fails on the unbound `templates` local. -/
theorem templates_unbound_when_disabled_witness :
    run_mmseqs ["A"] true true false none false "p" false [some "COMPLETE"] [] []
      = TopResult.err (PyError.unboundLocal "templates")
          [Event.submit "COMPLETE", Event.download] :=
  (templates_unbound_when_disabled ["A"] true true none false "p"
    [some "COMPLETE"] [] []).2 [Event.submit "COMPLETE", Event.download] rfl

/-! ## Dedup lemmas (for C1) -/

/-- The dedup fold only appends: the result is the accumulator followed
by a subsequence of the input whose elements are new. -/
theorem dedup_foldl_decomp : ∀ (l acc : List String),
    ∃ ex, List.foldl dedupStep acc l = acc ++ ex ∧ ex.Sublist l ∧ ∀ s ∈ ex, s ∉ acc := by
  intro l
  induction l with
  | nil => intro acc; exact ⟨[], by simp, List.nil_sublist _, by simp⟩
  | cons x l ih =>
    intro acc
    by_cases hx : x ∈ acc
    · obtain ⟨ex, h1, h2, h3⟩ := ih acc
      refine ⟨ex, ?_, h2.cons x, h3⟩
      simpa [dedupStep, hx] using h1
    · obtain ⟨ex, h1, h2, h3⟩ := ih (acc ++ [x])
      refine ⟨x :: ex, ?_, h2.cons₂ x, ?_⟩
      · simpa [dedupStep, hx, List.append_assoc] using h1
      · intro s hs
        rcases List.mem_cons.mp hs with rfl | hs2
        · exact hx
        · have := h3 s hs2
          simp only [List.mem_append, List.mem_singleton] at this
          exact fun hc => this (Or.inl hc)

/-- The dedup fold preserves absence of duplicates. -/
theorem dedup_foldl_nodup : ∀ (l acc : List String), acc.Nodup →
    (List.foldl dedupStep acc l).Nodup := by
  intro l
  induction l with
  | nil => intro acc h; simpa using h
  | cons x l ih =>
    intro acc h
    by_cases hx : x ∈ acc
    · simpa [dedupStep, hx] using ih acc h
    · have hnd : (acc ++ [x]).Nodup := by
        simp [List.nodup_append, h, hx]
      simpa [dedupStep, hx] using ih (acc ++ [x]) hnd

/-- Every input element survives the dedup fold. -/
theorem mem_dedup_foldl : ∀ (l acc : List String) (s : String), s ∈ l →
    s ∈ List.foldl dedupStep acc l := by
  intro l
  induction l with
  | nil => intro acc s h; cases h
  | cons x l ih =>
    intro acc s h
    rcases List.mem_cons.mp h with hxs | hl
    · rw [List.foldl_cons]
      obtain ⟨ex, h1, _, _⟩ := dedup_foldl_decomp l (dedupStep acc x)
      rw [h1]
      refine List.mem_append_left _ ?_
      by_cases hx : x ∈ acc
      · simp [dedupStep, hx, hxs]
      · simp [dedupStep, hx, hxs]
    · rw [List.foldl_cons]
      exact ih (dedupStep acc x) s hl


/-! ## Driver trace lemmas (for C4) -/

/-- The responses left over by `submitLoop` come from the input. -/
theorem submitLoop_sub : ∀ (resps : List (Option String)) (s : String)
    (rest : List (Option String)) (evs : List Event),
    submitLoop resps = some (s, rest, evs) → ∀ r ∈ rest, r ∈ resps := by
  intro resps
  induction resps with
  | nil => intro s rest evs h; exact absurd h (by simp [submitLoop])
  | cons r0 rs ih =>
    intro s rest evs h r hr
    by_cases hret : inSubmitRetry (parseResp r0) = true
    · simp only [submitLoop, hret, if_true] at h
      cases hs : submitLoop rs with
      | none => rw [hs] at h; exact Option.noConfusion h
      | some x =>
        obtain ⟨f, rem, evs2⟩ := x
        rw [hs] at h
        simp at h
        obtain ⟨h1, h2, h3⟩ := h
        subst h2
        exact List.mem_cons_of_mem r0 (ih _ _ _ hs r hr)
    · rw [Bool.not_eq_true] at hret
      simp [submitLoop, hret] at h
      obtain ⟨h1, h2, h3⟩ := h
      subst h2
      exact List.mem_cons_of_mem r0 hr

/-- The status `submitLoop` exits with satisfies any property holding of
all parsed response statuses. -/
theorem submitLoop_final : ∀ (p : String → Prop) (resps : List (Option String))
    (s : String) (rest : List (Option String)) (evs : List Event),
    submitLoop resps = some (s, rest, evs) → (∀ r ∈ resps, p (parseResp r)) → p s := by
  intro p resps
  induction resps with
  | nil => intro s rest evs h; exact absurd h (by simp [submitLoop])
  | cons r0 rs ih =>
    intro s rest evs h hall
    by_cases hret : inSubmitRetry (parseResp r0) = true
    · simp only [submitLoop, hret, if_true] at h
      cases hs : submitLoop rs with
      | none => rw [hs] at h; exact Option.noConfusion h
      | some x =>
        obtain ⟨f, rem, evs2⟩ := x
        rw [hs] at h
        simp at h
        obtain ⟨h1, h2, h3⟩ := h
        subst h1
        exact ih _ _ _ hs (fun r hr => hall r (List.mem_cons_of_mem r0 hr))
    · rw [Bool.not_eq_true] at hret
      simp [submitLoop, hret] at h
      obtain ⟨h1, h2, h3⟩ := h
      subst h1
      exact hall r0 (List.mem_cons_self r0 rs)

/-- The events of `submitLoop` are submit events, the last carrying the
exit status. -/
theorem submitLoop_trace : ∀ (resps : List (Option String)) (s : String)
    (rest : List (Option String)) (evs : List Event),
    submitLoop resps = some (s, rest, evs) →
    ∃ pre, evs = pre ++ [Event.submit s] ∧ ∀ e ∈ pre, ∃ st, e = Event.submit st := by
  intro resps
  induction resps with
  | nil => intro s rest evs h; exact absurd h (by simp [submitLoop])
  | cons r0 rs ih =>
    intro s rest evs h
    by_cases hret : inSubmitRetry (parseResp r0) = true
    · simp only [submitLoop, hret, if_true] at h
      cases hs : submitLoop rs with
      | none => rw [hs] at h; exact Option.noConfusion h
      | some x =>
        obtain ⟨f, rem, evs2⟩ := x
        rw [hs] at h
        simp at h
        obtain ⟨h1, h2, h3⟩ := h
        subst h1
        subst h3
        obtain ⟨pre, hp1, hp2⟩ := ih _ _ _ hs
        refine ⟨Event.submit (parseResp r0) :: pre, by simp [hp1], ?_⟩
        intro e he
        rcases List.mem_cons.mp he with rfl | he2
        · exact ⟨parseResp r0, rfl⟩
        · exact hp2 e he2
    · rw [Bool.not_eq_true] at hret
      simp [submitLoop, hret] at h
      obtain ⟨h1, h2, h3⟩ := h
      subst h1
      subst h3
      exact ⟨[], rfl, by simp⟩

/-- The responses left over by `pollLoop` come from the input. -/
theorem pollLoop_sub : ∀ (resps : List (Option String)) (cur f : String)
    (rest : List (Option String)) (evs : List Event),
    pollLoop cur resps = some (f, rest, evs) → ∀ r ∈ rest, r ∈ resps := by
  intro resps
  induction resps with
  | nil =>
    intro cur f rest evs h r hr
    by_cases hc : inPollSet cur = true
    · simp only [pollLoop, hc, if_true] at h
      exact Option.noConfusion h
    · rw [Bool.not_eq_true] at hc
      simp [pollLoop, hc] at h
      obtain ⟨h1, h2, h3⟩ := h
      subst h2
      cases hr
  | cons r0 rs ih =>
    intro cur f rest evs h r hr
    by_cases hc : inPollSet cur = true
    · simp only [pollLoop, hc, if_true] at h
      cases hs : pollLoop (parseResp r0) rs with
      | none => rw [hs] at h; exact Option.noConfusion h
      | some x =>
        obtain ⟨f2, rem, evs2⟩ := x
        rw [hs] at h
        simp at h
        obtain ⟨h1, h2, h3⟩ := h
        subst h2
        exact List.mem_cons_of_mem r0 (ih _ _ _ _ hs r hr)
    · rw [Bool.not_eq_true] at hc
      simp [pollLoop, hc] at h
      obtain ⟨h1, h2, h3⟩ := h
      subst h2
      exact hr

/-- The status `pollLoop` exits with satisfies any property holding of
the entry status and of all parsed response statuses. -/
theorem pollLoop_final : ∀ (p : String → Prop) (resps : List (Option String))
    (cur f : String) (rest : List (Option String)) (evs : List Event),
    pollLoop cur resps = some (f, rest, evs) → p cur →
    (∀ r ∈ resps, p (parseResp r)) → p f := by
  intro p resps
  induction resps with
  | nil =>
    intro cur f rest evs h hcur _
    by_cases hc : inPollSet cur = true
    · simp only [pollLoop, hc, if_true] at h
      exact Option.noConfusion h
    · rw [Bool.not_eq_true] at hc
      simp [pollLoop, hc] at h
      obtain ⟨h1, h2, h3⟩ := h
      subst h1
      exact hcur
  | cons r0 rs ih =>
    intro cur f rest evs h hcur hall
    by_cases hc : inPollSet cur = true
    · simp only [pollLoop, hc, if_true] at h
      cases hs : pollLoop (parseResp r0) rs with
      | none => rw [hs] at h; exact Option.noConfusion h
      | some x =>
        obtain ⟨f2, rem, evs2⟩ := x
        rw [hs] at h
        simp at h
        obtain ⟨h1, h2, h3⟩ := h
        subst h1
        exact ih _ _ _ _ hs
          (hall r0 (List.mem_cons_self r0 rs))
          (fun r hr => hall r (List.mem_cons_of_mem r0 hr))
    · rw [Bool.not_eq_true] at hc
      simp [pollLoop, hc] at h
      obtain ⟨h1, h2, h3⟩ := h
      subst h1
      exact hcur

/-- `pollLoop` only exits on a status outside the polling set. -/
theorem pollLoop_exit : ∀ (resps : List (Option String)) (cur f : String)
    (rest : List (Option String)) (evs : List Event),
    pollLoop cur resps = some (f, rest, evs) → inPollSet f = false := by
  intro resps
  induction resps with
  | nil =>
    intro cur f rest evs h
    by_cases hc : inPollSet cur = true
    · simp only [pollLoop, hc, if_true] at h
      exact Option.noConfusion h
    · rw [Bool.not_eq_true] at hc
      simp [pollLoop, hc] at h
      obtain ⟨h1, h2, h3⟩ := h
      subst h1
      exact hc
  | cons r0 rs ih =>
    intro cur f rest evs h
    by_cases hc : inPollSet cur = true
    · simp only [pollLoop, hc, if_true] at h
      cases hs : pollLoop (parseResp r0) rs with
      | none => rw [hs] at h; exact Option.noConfusion h
      | some x =>
        obtain ⟨f2, rem, evs2⟩ := x
        rw [hs] at h
        simp at h
        obtain ⟨h1, h2, h3⟩ := h
        subst h1
        exact ih _ _ _ _ hs
    · rw [Bool.not_eq_true] at hc
      simp [pollLoop, hc] at h
      obtain ⟨h1, h2, h3⟩ := h
      subst h1
      exact hc

/-- The events of `pollLoop` are poll events; when any were issued, the
last one carries the exit status. -/
theorem pollLoop_trace : ∀ (resps : List (Option String)) (cur f : String)
    (rest : List (Option String)) (evs : List Event),
    pollLoop cur resps = some (f, rest, evs) →
    (evs = [] ∧ f = cur)
    ∨ ∃ pre, evs = pre ++ [Event.poll f] ∧ ∀ e ∈ pre, ∃ st, e = Event.poll st := by
  intro resps
  induction resps with
  | nil =>
    intro cur f rest evs h
    by_cases hc : inPollSet cur = true
    · simp only [pollLoop, hc, if_true] at h
      exact Option.noConfusion h
    · rw [Bool.not_eq_true] at hc
      simp [pollLoop, hc] at h
      obtain ⟨h1, h2, h3⟩ := h
      subst h1
      subst h3
      exact Or.inl ⟨rfl, rfl⟩
  | cons r0 rs ih =>
    intro cur f rest evs h
    by_cases hc : inPollSet cur = true
    · simp only [pollLoop, hc, if_true] at h
      cases hs : pollLoop (parseResp r0) rs with
      | none => rw [hs] at h; exact Option.noConfusion h
      | some x =>
        obtain ⟨f2, rem, evs2⟩ := x
        rw [hs] at h
        simp at h
        obtain ⟨h1, h2, h3⟩ := h
        subst h1
        subst h3
        rcases ih _ _ _ _ hs with ⟨he, hf⟩ | ⟨pre, hp1, hp2⟩
        · subst he
          rw [hf]
          exact Or.inr ⟨[], rfl, by simp⟩
        · refine Or.inr ⟨Event.poll (parseResp r0) :: pre, by simp [hp1], ?_⟩
          intro e he
          rcases List.mem_cons.mp he with rfl | he2
          · exact ⟨parseResp r0, rfl⟩
          · exact hp2 e he2
    · rw [Bool.not_eq_true] at hc
      simp [pollLoop, hc] at h
      obtain ⟨h1, h2, h3⟩ := h
      subst h1
      subst h3
      exact Or.inl ⟨rfl, rfl⟩

/-- A download-free prefix followed by a COMPLETE observation legitimises
an immediately following download. -/
theorem dlAfterComplete_append : ∀ (pre : List Event) (seen : Bool) (e : Event),
    (∀ x ∈ pre, isDownload x = false) → eventObsComplete e = true →
    dlAfterComplete seen (pre ++ [e, Event.download]) = true := by
  intro pre
  induction pre with
  | nil =>
    intro seen e _ he
    cases e with
    | submit st =>
      simp only [eventObsComplete] at he
      simp [dlAfterComplete, eventObsComplete, he]
    | poll st =>
      simp only [eventObsComplete] at he
      simp [dlAfterComplete, eventObsComplete, he]
    | download => simp [eventObsComplete] at he
  | cons x pre ih =>
    intro seen e hpre he
    have hx := hpre x (List.mem_cons_self x pre)
    cases x with
    | download => simp [isDownload] at hx
    | submit st =>
      simpa [dlAfterComplete] using
        ih (seen || eventObsComplete (Event.submit st)) e
          (fun y hy => hpre y (List.mem_cons_of_mem _ hy)) he
    | poll st =>
      simpa [dlAfterComplete] using
        ih (seen || eventObsComplete (Event.poll st)) e
          (fun y hy => hpre y (List.mem_cons_of_mem _ hy)) he

/-- `isDownload` on each constructor. -/
theorem isDownload_download : isDownload Event.download = true := rfl

/-- `isDownload` on submit events. -/
theorem isDownload_submit (st : String) : isDownload (Event.submit st) = false := rfl

/-- `isDownload` on poll events. -/
theorem isDownload_poll (st : String) : isDownload (Event.poll st) = false := rfl

/-! ## C4: download discipline -/

/-- C4 (amended): when every response status lies in UNKNOWN / RUNNING /
PENDING / COMPLETE, a completed run downloads exactly once, and only
after a COMPLETE observation.  (Outside this set the property fails:
see the counterexample with a MAINTENANCE status while polling.) -/
theorem download_once_after_complete : ∀ (fuel : Nat) (resps : List (Option String))
    (trace : List Event),
    (∀ r ∈ resps, parseResp r ∈ goodStatuses) →
    redoLoop fuel resps = RunOutcome.ok trace →
    downloadCount trace = 1 ∧ downloadsOnlyAfterComplete trace = true := by
  intro fuel resps trace hgood hrun
  match fuel with
  | 0 => exact absurd hrun (by simp [redoLoop])
  | fuel + 1 =>
    rw [redoLoop] at hrun
    cases hs : submitLoop resps with
    | none => rw [hs] at hrun; exact RunOutcome.noConfusion hrun
    | some x =>
      obtain ⟨s, rest, evs1⟩ := x
      rw [hs] at hrun
      dsimp only at hrun
      have hsg : s ∈ goodStatuses :=
        submitLoop_final (fun st => st ∈ goodStatuses) resps s rest evs1 hs hgood
      have hrest : ∀ r ∈ rest, parseResp r ∈ goodStatuses :=
        fun r hr => hgood r (submitLoop_sub resps s rest evs1 hs r hr)
      have hsE : s ≠ "ERROR" := by
        intro hh
        rw [hh] at hsg
        revert hsg
        decide
      have hsM : s ≠ "MAINTENANCE" := by
        intro hh
        rw [hh] at hsg
        revert hsg
        decide
      rw [if_neg hsE, if_neg hsM] at hrun
      cases hp : pollLoop s rest with
      | none => rw [hp] at hrun; exact RunOutcome.noConfusion hrun
      | some y =>
        obtain ⟨f, rest2, evs2⟩ := y
        rw [hp] at hrun
        dsimp only at hrun
        have hfg : f ∈ goodStatuses :=
          pollLoop_final (fun st => st ∈ goodStatuses) rest s f rest2 evs2 hp hsg hrest
        have hfex : inPollSet f = false := pollLoop_exit rest s f rest2 evs2 hp
        have hfC : f = "COMPLETE" := by
          have hcases : f = "UNKNOWN" ∨ f = "RUNNING" ∨ f = "PENDING" ∨ f = "COMPLETE" := by
            simpa [goodStatuses] using hfg
          rcases hcases with hh | hh | hh | hh
          · rw [hh] at hfex; exact absurd hfex (by decide)
          · rw [hh] at hfex; exact absurd hfex (by decide)
          · rw [hh] at hfex; exact absurd hfex (by decide)
          · exact hh
        subst hfC
        rw [if_neg (by decide : ¬("COMPLETE" = "ERROR")), if_pos rfl] at hrun
        have htr : trace = evs1 ++ evs2 ++ [Event.download] := by
          cases hrun
          rfl
        subst htr
        obtain ⟨pre1, he1, hall1⟩ := submitLoop_trace resps s rest evs1 hs
        have hnd1 : ∀ e ∈ evs1, isDownload e = false := by
          intro e he
          rw [he1] at he
          rcases List.mem_append.mp he with h | h
          · obtain ⟨st, rfl⟩ := hall1 e h
            rfl
          · rw [List.mem_singleton.mp h]
            rfl
        rcases pollLoop_trace rest s "COMPLETE" rest2 evs2 hp with ⟨he2, hfc⟩ | ⟨pre2, he2, hall2⟩
        · -- no poll events: the submission itself returned COMPLETE
          subst he2
          subst hfc
          have hc1 : List.countP isDownload evs1 = 0 :=
            List.countP_eq_zero.mpr (fun e he => by simp [hnd1 e he])
          constructor
          · simp [downloadCount, List.countP_append, hc1, List.countP_cons,
              isDownload_download]
          · rw [he1]
            have := dlAfterComplete_append pre1 false (Event.submit "COMPLETE")
              (fun e he => by
                obtain ⟨st, rfl⟩ := hall1 e he
                rfl)
              (by decide)
            simpa [downloadsOnlyAfterComplete] using this
        · have hnd2 : ∀ e ∈ evs2, isDownload e = false := by
            intro e he
            rw [he2] at he
            rcases List.mem_append.mp he with h | h
            · obtain ⟨st, rfl⟩ := hall2 e h
              rfl
            · rw [List.mem_singleton.mp h]
              rfl
          have hc1 : List.countP isDownload evs1 = 0 :=
            List.countP_eq_zero.mpr (fun e he => by simp [hnd1 e he])
          have hc2 : List.countP isDownload evs2 = 0 :=
            List.countP_eq_zero.mpr (fun e he => by simp [hnd2 e he])
          constructor
          · simp [downloadCount, List.countP_append, hc1, hc2, List.countP_cons,
              isDownload_download]
          · rw [he2]
            have hpre : ∀ e ∈ evs1 ++ pre2, isDownload e = false := by
              intro e he
              rcases List.mem_append.mp he with h | h
              · exact hnd1 e h
              · obtain ⟨st, rfl⟩ := hall2 e h
                rfl
            have := dlAfterComplete_append (evs1 ++ pre2) false (Event.poll "COMPLETE")
              hpre (by decide)
            simpa [downloadsOnlyAfterComplete, List.append_assoc] using this

/-- C4 counterexample: with a MAINTENANCE status observed while polling,
the driver downloads before any COMPLETE observation and then, after
resubmitting, downloads a second time in the same invocation. -/
theorem download_before_complete_counterexample :
    redoLoop 4 [some "PENDING", some "MAINTENANCE", some "COMPLETE"]
      = RunOutcome.ok [Event.submit "PENDING", Event.poll "MAINTENANCE",
          Event.download, Event.submit "COMPLETE", Event.download]
    ∧ downloadCount [Event.submit "PENDING", Event.poll "MAINTENANCE",
        Event.download, Event.submit "COMPLETE", Event.download] = 2
    ∧ downloadsOnlyAfterComplete [Event.submit "PENDING", Event.poll "MAINTENANCE",
        Event.download, Event.submit "COMPLETE", Event.download] = false :=
  ⟨rfl, rfl, rfl⟩

/-- C4 witness: the claimed status sequence UNKNOWN, RUNNING, RUNNING,
COMPLETE produces exactly one download, after the COMPLETE observation. -/
theorem download_once_after_complete_witness :
    downloadCount [Event.submit "UNKNOWN", Event.submit "RUNNING",
        Event.poll "RUNNING", Event.poll "COMPLETE", Event.download] = 1
    ∧ downloadsOnlyAfterComplete [Event.submit "UNKNOWN", Event.submit "RUNNING",
        Event.poll "RUNNING", Event.poll "COMPLETE", Event.download] = true :=
  download_once_after_complete 5
    [some "UNKNOWN", some "RUNNING", some "RUNNING", some "COMPLETE"]
    [Event.submit "UNKNOWN", Event.submit "RUNNING",
      Event.poll "RUNNING", Event.poll "COMPLETE", Event.download]
    (by decide) rfl

/-! ## C1: deduplication and identifier assignment -/

/-- C1: `seqs_unique` removes duplicates keeping the input order (a
duplicate-free subsequence containing exactly the input's sequences);
`Ms` assigns each batch position 101 plus the rank of its sequence in
`seqs_unique`, so equal sequences share an identifier; in particular
`[S, T, S]` with `S ≠ T` gives `seqs_unique = [S, T]` (so S has
identifier 101, T identifier 102) and the identifier map
`[101, 102, 101]`. -/
theorem run_mmseqs_dedup_identifiers :
    (∀ seqs : List String,
      (seqs_unique seqs).Nodup
      ∧ (seqs_unique seqs).Sublist seqs
      ∧ (∀ s, s ∈ seqs_unique seqs ↔ s ∈ seqs)
      ∧ (Ms seqs).length = seqs.length
      ∧ (∀ (i : Nat) (hi : i < seqs.length),
          (Ms seqs).get? i
            = some (101 + (listIndex (seqs_unique seqs) (seqs.get ⟨i, hi⟩) : Int)))
      ∧ (∀ (i j : Nat) (hi : i < seqs.length) (hj : j < seqs.length),
          seqs.get ⟨i, hi⟩ = seqs.get ⟨j, hj⟩ →
          (Ms seqs).get? i = (Ms seqs).get? j))
    ∧ (∀ S T : String, S ≠ T →
        seqs_unique [S, T, S] = [S, T] ∧ Ms [S, T, S] = [101, 102, 101]) := by
  constructor
  · intro seqs
    obtain ⟨ex, h1, h2, _⟩ := dedup_foldl_decomp seqs []
    have hsu : seqs_unique seqs = ex := by simpa [seqs_unique] using h1
    have hget : ∀ (i : Nat) (hi : i < seqs.length),
        (Ms seqs).get? i
          = some (101 + (listIndex (seqs_unique seqs) (seqs.get ⟨i, hi⟩) : Int)) := by
      intro i hi
      rw [Ms, List.get?_map, List.get?_eq_get hi]
      rfl
    refine ⟨?_, ?_, ?_, by simp [Ms], hget, ?_⟩
    · exact dedup_foldl_nodup seqs [] List.nodup_nil
    · rw [hsu]
      exact h2
    · intro s
      constructor
      · intro hs
        rw [hsu] at hs
        exact h2.subset hs
      · intro hs
        exact mem_dedup_foldl seqs [] s hs
    · intro i j hi hj heq
      rw [hget i hi, hget j hj, heq]
  · intro S T hST
    have hTS : ¬ (T = S) := fun h => hST h.symm
    constructor
    · simp [seqs_unique, dedupStep, hTS]
    · have hsu : seqs_unique [S, T, S] = [S, T] := by
        simp [seqs_unique, dedupStep, hTS]
      simp [Ms, hsu, listIndex, hST, hTS]

/-- C1 witness: the concrete batch `["A", "B", "A"]`. -/
theorem run_mmseqs_dedup_identifiers_witness :
    seqs_unique ["A", "B", "A"] = ["A", "B"] ∧ Ms ["A", "B", "A"] = [101, 102, 101] :=
  run_mmseqs_dedup_identifiers.2 "A" "B" (by decide)

/-! ## Assembler lemmas (for C2 and C8) -/

/-- A successful `buildA3mList` has one entry per identifier, the joined
block text found under that identifier. -/
theorem buildA3mList_spec : ∀ (ns : List Int) (d : List (Int × List String)) (out : List String),
    buildA3mList d ns = Except.ok out →
    out.length = ns.length
    ∧ ∀ (k : Nat) (n : Int), ns.get? k = some n →
        ∃ ls, lookupLS d n = some ls ∧ out.get? k = some (String.join ls) := by
  intro ns
  induction ns with
  | nil =>
    intro d out h
    simp only [buildA3mList] at h
    cases h
    exact ⟨rfl, by intro k n hk; cases hk⟩
  | cons n ns ih =>
    intro d out h
    simp only [buildA3mList] at h
    cases hl : lookupLS d n with
    | none => rw [hl] at h; exact Except.noConfusion h
    | some ls =>
      rw [hl] at h
      cases hb : buildA3mList d ns with
      | error e => rw [hb] at h; exact Except.noConfusion h
      | ok rest =>
        rw [hb] at h
        dsimp only at h
        cases h
        obtain ⟨hlen, hget⟩ := ih d rest hb
        constructor
        · simp [hlen]
        · intro k m hk
          cases k with
          | zero =>
            simp only [List.get?] at hk
            cases hk
            exact ⟨ls, hl, by simp⟩
          | succ k =>
            simp only [List.get?] at hk ⊢
            exact hget k m hk

/-- A successful `assemble` decomposes into a successful gather and a
successful reordering. -/
theorem assemble_ok_a3m : ∀ (u : Bool) (p m : String) (hits : List String)
    (files : List (List String)) (ms : List Int) (a3m : List String)
    (tpl : Option (List (Option String))),
    assemble u p m hits files ms = Except.ok (a3m, tpl) →
    ∃ d, gatherA3mFiles files = Except.ok d ∧ buildA3mList d ms = Except.ok a3m := by
  intro u p m hits files ms a3m tpl h
  simp only [assemble] at h
  split at h
  · exact Except.noConfusion h
  · exact Except.noConfusion h
  · split at h
    · exact Except.noConfusion h
    · rename_i d hd
      split at h
      · exact Except.noConfusion h
      · rename_i a3m2 ha2
        simp only [Except.ok.injEq, Prod.mk.injEq] at h
        obtain ⟨h1, h2⟩ := h
        subst h1
        exact ⟨d, hd, ha2⟩

/-! ## C2: duplicates receive identical alignment entries -/

/-- C2: whenever `run_mmseqs` returns, the alignment list is aligned 1:1
with the batch and has identical entries at any two indices holding
equal input sequences (each entry is the block text looked up through
the index's identifier). -/
theorem duplicate_sequences_equal_alignments :
    ∀ (seqs : List String) (ue uf ut : Bool) (filterOpt : Option Bool) (up : Bool)
      (prefixStr : String) (resps : List (Option String)) (hits : List String)
      (files : List (List String)) (out : List String)
      (tpl : Option (List (Option String))) (tr : List Event),
    run_mmseqs seqs ue uf ut filterOpt up prefixStr false resps hits files
      = TopResult.ret out tpl tr →
    ∀ (i j : Nat) (hi : i < seqs.length) (hj : j < seqs.length),
    seqs.get ⟨i, hi⟩ = seqs.get ⟨j, hj⟩ →
    out.length = seqs.length ∧ out.get? i = out.get? j := by
  intro seqs ue uf ut filterOpt up prefixStr resps hits files out tpl tr h i j hi hj heq
  simp only [run_mmseqs] at h
  rw [if_neg Bool.false_ne_true] at h
  split at h
  · exact TopResult.noConfusion h
  · exact TopResult.noConfusion h
  · split at h
    · exact TopResult.noConfusion h
    · rename_i a3mv tplv hasm
      simp only [TopResult.ret.injEq] at h
      obtain ⟨h1, h2, h3⟩ := h
      obtain ⟨d, hg, hb⟩ := assemble_ok_a3m _ _ _ _ _ _ _ _ hasm
      obtain ⟨hlen, hget⟩ := buildA3mList_spec (Ms seqs) d a3mv hb
      have hmslen : (Ms seqs).length = seqs.length := by simp [Ms]
      have hmi : (Ms seqs).get? i
          = some (101 + (listIndex (seqs_unique seqs) (seqs.get ⟨i, hi⟩) : Int)) := by
        rw [Ms, List.get?_map, List.get?_eq_get hi]
        rfl
      have hmj : (Ms seqs).get? j
          = some (101 + (listIndex (seqs_unique seqs) (seqs.get ⟨j, hj⟩) : Int)) := by
        rw [Ms, List.get?_map, List.get?_eq_get hj]
        rfl
      have heq2 : (101 + (listIndex (seqs_unique seqs) (seqs.get ⟨i, hi⟩) : Int))
          = (101 + (listIndex (seqs_unique seqs) (seqs.get ⟨j, hj⟩) : Int)) := by
        rw [heq]
      obtain ⟨ls1, hl1, ho1⟩ := hget i _ hmi
      obtain ⟨ls2, hl2, ho2⟩ := hget j _ hmj
      rw [heq2] at hl1
      have hls : ls1 = ls2 := Option.some.inj (hl1.symm.trans hl2)
      constructor
      · rw [← h1, hlen, hmslen]
      · rw [← h1, ho1, ho2, hls]

/-- C2 witness: the batch `["A", "B", "A"]` run to completion returns an
alignment list whose first and third entries coincide. -/
theorem duplicate_sequences_equal_alignments_witness :
    ([">101\naa\n", ">102\nbb\n", ">101\naa\n"] : List String).length
        = (["A", "B", "A"] : List String).length
    ∧ ([">101\naa\n", ">102\nbb\n", ">101\naa\n"] : List String).get? 0
        = ([">101\naa\n", ">102\nbb\n", ">101\naa\n"] : List String).get? 2 :=
  duplicate_sequences_equal_alignments ["A", "B", "A"] true true true none false "p"
    [some "COMPLETE"] [] [[">101\n", "aa\n", "\x00>102\n", "bb\n"]]
    [">101\naa\n", ">102\nbb\n", ">101\naa\n"] (some [none, none, none])
    [Event.submit "COMPLETE", Event.download] rfl 0 2 (by decide) (by decide) rfl

/-! ## C7: repeated header after a NUL marker -/

/-- Appending the empty string on the left is the identity. -/
theorem str_empty_append (s : String) : "" ++ s = s := by
  cases s with
  | mk d => rfl

/-- C7: parsing a file whose lines are a header for 101, an ordinary
line, a NUL-marked line, the same header again and another ordinary
line: the NUL byte is stripped, the repeated header starts a new block
(because the NUL set `update_M`), and the text stored under 101 is both
blocks' lines concatenated in file order — later text appended after
earlier, never replacing it — with each header line included verbatim. -/
theorem a3m_repeated_header_appends (a c b : String)
    (ha0 : 0 < a.length) (hanul : containsNul a = false)
    (hc0 : 0 < c.length) (hcnul : containsNul c = true)
    (hcgt : pyStartsWithGT (stripNulStr c) = false)
    (hb0 : 0 < b.length) (hbnul : containsNul b = false) :
    parseA3mFile [] [">101\n", a, c, ">101\n", b]
      = Except.ok [(101, [">101\n", a, stripNulStr c, ">101\n", b])]
    ∧ String.join [">101\n", a, stripNulStr c, ">101\n", b]
      = ">101\n" ++ a ++ stripNulStr c ++ ">101\n" ++ b := by
  have s1 : a3mStep (A3mSt.mk [] true none) ">101\n"
      = Except.ok (A3mSt.mk [(101, [">101\n"])] false (some 101)) := rfl
  have s2 : a3mStep (A3mSt.mk [(101, [">101\n"])] false (some 101)) a
      = Except.ok (A3mSt.mk [(101, [">101\n", a])] false (some 101)) := by
    simp [a3mStep, ha0, hanul, dictAppendLine]
  have s3 : a3mStep (A3mSt.mk [(101, [">101\n", a])] false (some 101)) c
      = Except.ok (A3mSt.mk [(101, [">101\n", a, stripNulStr c])] true (some 101)) := by
    simp [a3mStep, hc0, hcnul, hcgt, dictAppendLine]
  have h40 : 0 < (">101\n" : String).length := by decide
  have h41 : containsNul ">101\n" = false := rfl
  have h42 : pyStartsWithGT ">101\n" = true := rfl
  have h43 : pyInt (pyRstrip (pyDrop1 ">101\n")) = some 101 := rfl
  have s4 : a3mStep (A3mSt.mk [(101, [">101\n", a, stripNulStr c])] true (some 101)) ">101\n"
      = Except.ok (A3mSt.mk [(101, [">101\n", a, stripNulStr c, ">101\n"])] false (some 101)) := by
    simp [a3mStep, h40, h41, h42, h43, ensureKey, lookupLS, dictAppendLine]
  have s5 : a3mStep (A3mSt.mk [(101, [">101\n", a, stripNulStr c, ">101\n"])] false (some 101)) b
      = Except.ok (A3mSt.mk [(101, [">101\n", a, stripNulStr c, ">101\n", b])] false (some 101)) := by
    simp [a3mStep, hb0, hbnul, dictAppendLine]
  constructor
  · simp only [parseA3mFile, a3mRun, s1, s2, s3, s4, s5, Except.map]
  · simp only [String.join, List.foldl]
    rw [str_empty_append]

/-- C7 witness: the concrete file `>101`, `AAA`, `B<NUL>B`, `>101`,
`CCC` (each line newline-terminated). -/
theorem a3m_repeated_header_appends_witness :
    parseA3mFile [] [">101\n", "AAA\n", "B\x00B\n", ">101\n", "CCC\n"]
      = Except.ok [(101, [">101\n", "AAA\n", stripNulStr "B\x00B\n", ">101\n", "CCC\n"])]
    ∧ String.join [">101\n", "AAA\n", stripNulStr "B\x00B\n", ">101\n", "CCC\n"]
      = ">101\n" ++ "AAA\n" ++ stripNulStr "B\x00B\n" ++ ">101\n" ++ "CCC\n" :=
  a3m_repeated_header_appends "AAA\n" "B\x00B\n" "CCC\n"
    (by decide) (by decide) (by decide) (by decide) (by decide) (by decide) (by decide)

/-! ## Template-path lemmas (for C8) -/

/-- `dictAppendStr` adds no key other than the one appended. -/
theorem dictAppendStr_keys : ∀ (d : List (Int × List String)) (m : Int) (v : String)
    (k : Int), k ∈ (dictAppendStr d m v).map Prod.fst → k ∈ d.map Prod.fst ∨ k = m := by
  intro d m v
  induction d with
  | nil =>
    intro k hk
    simp [dictAppendStr] at hk
    exact Or.inr hk
  | cons p rest ih =>
    obtain ⟨k0, vs⟩ := p
    intro k hk
    by_cases h0 : k0 = m
    · subst h0
      simp only [dictAppendStr, if_pos rfl, List.map_cons, List.mem_cons] at hk
      left
      simpa using hk
    · simp only [dictAppendStr, if_neg h0, List.map_cons, List.mem_cons] at hk
      rcases hk with hk | hk
      · exact Or.inl (by simp [hk])
      · rcases ih k hk with hin | heq
        · exact Or.inl (by simp [hin])
        · exact Or.inr heq

/-- Every key of the `templates` dict comes from the first column of
some hits line. -/
theorem buildTemplatesAux_keys : ∀ (lines : List String) (d T : List (Int × List String)),
    buildTemplatesAux d lines = Except.ok T →
    ∀ k, k ∈ T.map Prod.fst →
      k ∈ d.map Prod.fst ∨ ∃ line ∈ lines, hitFirstCol line = some k := by
  intro lines
  induction lines with
  | nil =>
    intro d T h k hk
    simp only [buildTemplatesAux] at h
    cases h
    exact Or.inl hk
  | cons line rest ih =>
    intro d T h k hk
    simp only [buildTemplatesAux] at h
    cases hp : parseHitLine line with
    | error e => rw [hp] at h; exact Except.noConfusion h
    | ok pr =>
      obtain ⟨m, pdb⟩ := pr
      rw [hp] at h
      rcases ih (dictAppendStr d m pdb) T h k hk with hin | ⟨l2, hl2, hc2⟩
      · rcases dictAppendStr_keys d m pdb k hin with h1 | h1
        · exact Or.inl h1
        · subst h1
          exact Or.inr ⟨line, List.mem_cons_self line rest, by simp [hitFirstCol, hp]⟩
      · exact Or.inr ⟨l2, List.mem_cons_of_mem line hl2, hc2⟩

/-- Looking up an absent key yields the absent marker. -/
theorem lookupStr_none : ∀ (tp : List (Int × String)) (n : Int),
    n ∉ tp.map Prod.fst → lookupStr tp n = none := by
  intro tp
  induction tp with
  | nil => intro n _; rfl
  | cons p rest ih =>
    obtain ⟨k, v⟩ := p
    intro n hn
    simp only [List.map_cons, List.mem_cons] at hn
    push_neg at hn
    simp only [lookupStr, if_neg (by simpa using (Ne.symm hn.1))]
    exact ih n hn.2

/-! ## C8: absent template identifiers -/

/-- C8: with templates requested, when the other assembler stages
succeed, a batch position whose identifier appears in no hits-file
first column gets the absent marker `none` at its position of the
template-path list — which stays aligned 1:1 with the batch — and the
call still succeeds. -/
theorem missing_template_id_yields_none (hits : List String) (files : List (List String))
    (ms : List Int) (prefixStr modeStr : String) (T d : List (Int × List String))
    (a3m : List String) (n : Int) (i : Nat)
    (hT : buildTemplates hits = Except.ok T)
    (hG : gatherA3mFiles files = Except.ok d)
    (hA : buildA3mList d ms = Except.ok a3m)
    (habs : ∀ line ∈ hits, hitFirstCol line ≠ some n)
    (hilen : i < ms.length) (hi : ms.get ⟨i, hilen⟩ = n) :
    assemble true prefixStr modeStr hits files ms
      = Except.ok (a3m, some (buildTemplatePathsList (templatePathsDict T prefixStr modeStr) ms))
    ∧ (buildTemplatePathsList (templatePathsDict T prefixStr modeStr) ms).length = ms.length
    ∧ (buildTemplatePathsList (templatePathsDict T prefixStr modeStr) ms).get? i = some none := by
  have hnk : n ∉ T.map Prod.fst := by
    intro hmem
    rcases buildTemplatesAux_keys hits [] T hT n hmem with h0 | ⟨l, hl, hc⟩
    · simp at h0
    · exact habs l hl hc
  have hkeys : (templatePathsDict T prefixStr modeStr).map Prod.fst = T.map Prod.fst := by
    simp [templatePathsDict, List.map_map, Function.comp]
  have hlk : lookupStr (templatePathsDict T prefixStr modeStr) n = none :=
    lookupStr_none _ n (by rw [hkeys]; exact hnk)
  refine ⟨?_, ?_, ?_⟩
  · simp [assemble, hT, hG, hA, Except.map]
  · simp [buildTemplatePathsList]
  · rw [buildTemplatePathsList, List.get?_map, List.get?_eq_get hilen, hi]
    simp [hlk]

/-- C8 witness: a hits file whose only line is for identifier 102, a
batch whose only identifier is 101. -/
theorem missing_template_id_yields_none_witness :
    assemble true "p" "env" ["102 1abc_A q 0 0 0 0 0 0 0 1"] [[">101\n", "AA\n"]] [101]
      = Except.ok ([">101\nAA\n"],
          some (buildTemplatePathsList
            (templatePathsDict [(102, ["1abc_A"])] "p" "env") [101]))
    ∧ (buildTemplatePathsList
        (templatePathsDict [(102, ["1abc_A"])] "p" "env") [101]).length
      = ([101] : List Int).length
    ∧ (buildTemplatePathsList
        (templatePathsDict [(102, ["1abc_A"])] "p" "env") [101]).get? 0 = some none :=
  missing_template_id_yields_none ["102 1abc_A q 0 0 0 0 0 0 0 1"] [[">101\n", "AA\n"]]
    [101] "p" "env" [(102, ["1abc_A"])] [(101, [">101\n", "AA\n"])] [">101\nAA\n"] 101 0
    rfl rfl rfl (by decide) (by decide) rfl
